import Mathlib

/-!
# Verification of the `ack-generate types` command

A shallow embedding of `cmd/ack-generate/command/types.go` from the
aws-controllers-k8s repository. The CLI glue in that file is embedded
directly; its collaborators (the `resource` and `template` packages, the
YAML/JSON decoding libraries, and the operating system) are not part of
`src/`, so they are modelled either as oracles (explicit function-valued
parameters, for the black-box libraries and the filesystem) or, where a
claim depends on their behaviour, as definitions modelled from the spec.

Go byte slices are embedded as `List Char`; machine I/O (stdin, file reads,
file writes) is embedded as explicit oracle records so that every function
is pure and two runs on the same oracles are comparable.
-/

namespace AckGen

/-- Embeds the Go `contentType` enum from types.go (ctUnknown/ctJSON/ctYAML). -/
inductive ContentType where
  | ctUnknown
  | ctJSON
  | ctYAML
deriving DecidableEq, Repr

/-- One node of the schema graph. Modelled from the spec: the `resource`
package's schema model is not in `src/`; the spec (§3, §9) describes a closed
union object/array/enum/primitive/reference, with cross-type references made
by name. Fields are (name, schema, required). -/
inductive Schema where
  | object (fields : List (String × Schema × Bool))
  | array (elem : Schema)
  | enumv (vals : List String)
  | primitive (ty : String)
  | reference (name : String)

/-- The normalized API description produced by the OpenAPI3 loader
(`openapi3.Swagger`). Only the parts the embedded code consumes are kept:
the info extensions (raw JSON text per vendor key), the named schema
definitions in document order, and the set of schema names used as
operation bodies (what the spec-modelled resource extractor consumes). -/
structure Swagger where
  title : String
  extensions : List (String × String)
  definitions : List (String × Schema)
  opBodies : List String

/-- A manageable resource. Modelled from the spec (§3): Kind plus its spec
schema (status pairing is not needed by any claim and is elided). -/
structure Resource where
  kind : String
  spec : Schema

/-- A named emittable type definition. Modelled from the spec (§3). -/
structure TypeDef where
  name : String
  schema : Schema

/-- Errors surfaced by the embedded loader, mirroring the `fmt.Errorf` sites
in types.go. Note the Go code uses the *same* message for bad arity and for
a stdin read failure; `expectedDescriptor` covers both sites. -/
inductive LoadError where
  | expectedDescriptor
  | readFileError (path : String)
  | emptyOrInvalid (got : List Char)
  | parseError (bytes : List Char)
deriving DecidableEq, Repr

/-- Run-level errors of `generateTypes`. -/
inductive GenErr where
  | loadErr (e : LoadError)
  | invalidResourceShape (name : String)
  | unresolvedReference (name : String)
  | dirError (msg : String)
  | renderError (artifact : String)
  | writeError (artifact : String)
deriving DecidableEq, Repr

/-- Embeds Go `path/filepath.Ext`: the suffix beginning at the final dot in
the final element of the path, empty if there is no dot. Scans from the end,
stopping at a path separator. -/
def filepathExtAux : List Char → List Char → List Char
  | [], _ => []
  | c :: rest, acc =>
    if c = '/' then []
    else if c = '.' then c :: acc
    else filepathExtAux rest (c :: acc)

/-- Embeds Go `path/filepath.Ext`. -/
def filepathExt (p : String) : String :=
  ⟨filepathExtAux p.data.reverse []⟩

/-- Embeds the extension switch in `getAPI` (types.go lines 254-259): the
case labels are the literal strings "json", "yaml", "yml" (no leading dot),
and the default leaves the hint at `ctUnknown`. -/
def hintFromExt (ext : String) : ContentType :=
  if ext = "json" then ContentType.ctJSON
  else if ext = "yaml" ∨ ext = "yml" then ContentType.ctYAML
  else ContentType.ctUnknown

/-- Oracles for the document-loading phase: the stdin stream, the file
reader (indexed by the cleaned path the Go code passes to `ReadFile`), and
the two external decoding libraries (`yaml.YAMLToJSON` and the kin-openapi
`LoadSwaggerFromData`), each returning `none` on failure. -/
structure LoadOracles where
  readStdin : Option (List Char)
  readFile : String → Option (List Char)
  yamlToJSON : List Char → Option (List Char)
  parseSwagger : List Char → Option Swagger

/-- The argument-dispatch and read phase of `getAPI` (types.go lines
243-265): zero args reads stdin, one arg derives a hint from the path's
extension and reads the file, anything else is the invalid-invocation
error. Returns the content-type hint and the raw bytes. -/
def readInput (args : List String) (lo : LoadOracles) :
    Except LoadError (ContentType × List Char) :=
  match args with
  | [] =>
    match lo.readStdin with
    | some b => Except.ok (ContentType.ctUnknown, b)
    | none => Except.error LoadError.expectedDescriptor
  | [fp] =>
    match lo.readFile fp with
    | some b => Except.ok (hintFromExt (filepathExt fp), b)
    | none => Except.error (LoadError.readFileError fp)
  | _ => Except.error LoadError.expectedDescriptor

/-- Embeds `getAPI` (types.go lines 242-287): read the input, reject fewer
than 2 bytes, then if the hint is YAML — or the hint is unknown and the
FIRST byte is neither '{' nor '[' — attempt YAML-to-JSON normalization,
falling back to the original bytes on failure; finally parse. -/
def getAPI (args : List String) (lo : LoadOracles) : Except LoadError Swagger :=
  match readInput args lo with
  | Except.error e => Except.error e
  | Except.ok (ct, b) =>
    if b.length < 2 then Except.error (LoadError.emptyOrInvalid b)
    else
      let jsonb :=
        if ct = ContentType.ctYAML ∨
            (ct = ContentType.ctUnknown ∧ b.head? ≠ some '{' ∧ b.head? ≠ some '[') then
          (lo.yamlToJSON b).getD b
        else b
      match lo.parseSwagger jsonb with
      | some api => Except.ok api
      | none => Except.error (LoadError.parseError jsonb)

/-- Embeds the assoc-list lookup the Go code performs on
`api.Info.Extensions` (a map from vendor key to raw JSON bytes). -/
def lookupExt : List (String × String) → String → Option String
  | [], _ => none
  | (k, v) :: rest, key => if k = key then some v else lookupExt rest key

/-- Embeds `strings.Replace(s, "\"", "", -1)`: drop every double-quote. -/
def removeQuotes (s : String) : String :=
  ⟨s.data.filter (fun c => c ≠ '"')⟩

/-- Embeds `apiGroupFromSwagger` (types.go lines 135-143): take the raw
JSON text of the `x-aws-api-alias` info extension (a `json.RawMessage`
whose `MarshalJSON` returns the raw bytes themselves), defaulting to
`unknown` when absent, append `.services.k8s.aws`, and strip every
double-quote from the formatted string. -/
def apiGroupFromSwagger (api : Swagger) : String :=
  let apiAliasStr :=
    match lookupExt api.extensions "x-aws-api-alias" with
    | some raw => raw
    | none => "unknown"
  removeQuotes (apiAliasStr ++ ".services.k8s.aws")

/-- Modelled from the spec: `resource.ResourcesFromAPI` is not in `src/`.
Per §4.3, a named schema becomes a Resource exactly when it is used as an
operation body, the list follows first-seen document order, and a Resource
whose spec schema is not an object is the fatal `InvalidResourceShape`. -/
def resourcesFromDefs (opBodies : List String) :
    List (String × Schema) → Except GenErr (List Resource)
  | [] => Except.ok []
  | (n, s) :: rest =>
    if n ∈ opBodies then
      match s with
      | Schema.object fs =>
        (resourcesFromDefs opBodies rest).map
          (fun rs => { kind := n, spec := Schema.object fs } :: rs)
      | _ => Except.error (GenErr.invalidResourceShape n)
    else resourcesFromDefs opBodies rest

/-- Modelled from the spec: see `resourcesFromDefs`. -/
def resourcesFromAPI (api : Swagger) : Except GenErr (List Resource) :=
  resourcesFromDefs api.opBodies api.definitions

mutual

/-- Names referenced (by the `reference` variant) anywhere inside a schema. -/
def refNamesOf : Schema → List String
  | Schema.object fields => refNamesOfFields fields
  | Schema.array e => refNamesOf e
  | Schema.enumv _ => []
  | Schema.primitive _ => []
  | Schema.reference n => [n]

/-- Names referenced inside a field list. -/
def refNamesOfFields : List (String × Schema × Bool) → List String
  | [] => []
  | (_, s, _) :: rest => refNamesOf s ++ refNamesOfFields rest

end

/-- Keep the first occurrence of each name, preserving first-seen order. -/
def dedupByName (seen : List String) :
    List (String × Schema) → List (String × Schema)
  | [] => []
  | (n, s) :: rest =>
    if n ∈ seen then dedupByName seen rest
    else (n, s) :: dedupByName (n :: seen) rest

/-- Modelled from the spec: `resource.TypeDefsFromAPI` is not in `src/`.
Per §4.4 the result is one TypeDef per distinct named schema in first-seen
order (names are the identity), and per §4.2 a reference to a name absent
from the definitions mapping is the fatal `UnresolvedReference`. The Go
function also receives the resource list; the model's traversal of all
named definitions already covers the schemas reachable from resources. -/
def typeDefsFromAPI (api : Swagger) (_resources : List Resource) :
    Except GenErr (List TypeDef) :=
  let defs := dedupByName [] api.definitions
  let defNames := api.definitions.map Prod.fst
  match (defs.map (fun p => refNamesOf p.2)).flatten.find?
      (fun n => ¬ defNames.contains n) with
  | some n => Except.error (GenErr.unresolvedReference n)
  | none => Except.ok (defs.map (fun p => { name := p.1, schema := p.2 }))

/-- The loading-and-extraction prefix of `generateTypes` (types.go lines
98-109): load the document, extract resources, extract type definitions,
stopping at the first error. -/
def pipelineRT (args : List String) (lo : LoadOracles) :
    Except GenErr (Swagger × List Resource × List TypeDef) :=
  match getAPI args lo with
  | Except.error e => Except.error (GenErr.loadErr e)
  | Except.ok api =>
    match resourcesFromAPI api with
    | Except.error e => Except.error e
    | Except.ok rs =>
      match typeDefsFromAPI api rs with
      | Except.error e => Except.error e
      | Except.ok ts => Except.ok (api, rs, ts)

/-- What a filesystem path names, for the output-directory logic. -/
inductive FSEntry where
  | absent
  | dir
  | file (writable : Bool)
deriving DecidableEq, Repr

/-- Embeds `ensureOutputDir` (types.go lines 67-93) against an abstract
filesystem oracle. `""` is the stdout sentinel: noop returning (false, nil).
A non-existent path is created with `os.MkdirAll` (modelled as the nominal
successful OS call). An existing non-directory is an error. For an existing
directory the code probes writability by opening `<path>/test` with
`os.OpenFile(_, O_WRONLY, 0666)` — write-only and WITHOUT `O_CREATE`, so
the open succeeds only if a writable file named `test` already exists
there: a missing file is a non-permission error returned as-is, a
permission failure yields the not-writeable message, a directory entry
fails the open as well. Returns (alreadyExisted, error?). -/
def ensureOutputDir (outputPath : String) (fs : String → FSEntry) :
    Bool × Option String :=
  if outputPath = "" then (false, none)
  else
    match fs outputPath with
    | FSEntry.absent => (false, none)
    | FSEntry.file _ =>
      (false, some ("expected " ++ outputPath ++ " to be a directory."))
    | FSEntry.dir =>
      match fs (outputPath ++ "/test") with
      | FSEntry.absent => (true, some "open: no such file or directory")
      | FSEntry.dir => (true, some "open: is a directory")
      | FSEntry.file w =>
        if w then (true, none)
        else (true, some (outputPath ++ " is not a writeable directory."))

/-- The CLI flag defaults registered in `init` (types.go lines 54-62). -/
def defaultGenVersion : String := "v1alpha1"

/-- Default of the `--output` flag: empty means print to stdout. -/
def defaultOutputPath : String := ""

/-- The two persistent flags of the `types` subcommand. -/
structure Config where
  genVersion : String
  outputPath : String

/-- The configuration after `init` with no flags given on the command line. -/
def defaultConfig : Config :=
  { genVersion := defaultGenVersion, outputPath := defaultOutputPath }

/-- The variables handed to the template collaborator, one constructor per
template kind (types.go: DocTemplateVars, GroupVersionInfoTemplateVars,
TypesTemplateVars, ResourceTemplateVars). -/
inductive TemplateVars where
  | docVars (apiVersion apiGroup : String)
  | gviVars (apiVersion apiGroup : String)
  | typesVars (apiVersion : String) (typeDefs : List TypeDef)
  | resourceVars (apiVersion : String) (res : Resource)

/-- An output action actually performed: a banner-print to stdout or a
file written under the output directory, identified by artifact filename. -/
inductive Emit where
  | printed (name : String)
  | written (name : String)
deriving DecidableEq, Repr

/-- The artifact filename of an emitted output. -/
def emitName : Emit → String
  | Emit.printed n => n
  | Emit.written n => n

/-- Oracles for the emission phase: the template collaborator (returns
rendered bytes, `none` on template-load or execute failure), whether a
file write succeeds, and the filesystem consulted by `ensureOutputDir`. -/
structure EmitOracles where
  render : TemplateVars → Option String
  writeOk : String → Bool
  fs : String → FSEntry

/-- Common tail of the four write functions in types.go: after a
successful render, print with a banner when the output path is empty,
otherwise write `<outputPath>/<fname>`. -/
def outputArtifact (cfg : Config) (eo : EmitOracles) (fname : String)
    (rendered : Option String) : Except GenErr Emit :=
  match rendered with
  | none => Except.error (GenErr.renderError fname)
  | some _ =>
    if cfg.outputPath = "" then Except.ok (Emit.printed fname)
    else if eo.writeOk (cfg.outputPath ++ "/" ++ fname) then
      Except.ok (Emit.written fname)
    else Except.error (GenErr.writeError fname)

/-- Embeds `writeDocGo` (types.go lines 145-167): render the doc template
with the API version and the derived API group, then output `doc.go`. -/
def writeDocGo (api : Swagger) (cfg : Config) (eo : EmitOracles) :
    Except GenErr Emit :=
  outputArtifact cfg eo "doc.go"
    (eo.render (TemplateVars.docVars cfg.genVersion (apiGroupFromSwagger api)))

/-- Embeds `writeGroupVersionInfoGo` (types.go lines 169-191). -/
def writeGroupVersionInfoGo (api : Swagger) (cfg : Config)
    (eo : EmitOracles) : Except GenErr Emit :=
  outputArtifact cfg eo "groupversion_info.go"
    (eo.render (TemplateVars.gviVars cfg.genVersion (apiGroupFromSwagger api)))

/-- Embeds `writeTypesGo` (types.go lines 193-214). -/
def writeTypesGo (typeDefs : List TypeDef) (cfg : Config)
    (eo : EmitOracles) : Except GenErr Emit :=
  outputArtifact cfg eo "types.go"
    (eo.render (TemplateVars.typesVars cfg.genVersion typeDefs))

/-- Embeds the external `strcase.ToSnake` used for per-resource filenames
(simplified model of the library: an underscore before each non-initial
uppercase letter, everything lowercased; no claim depends on its details). -/
def toSnake (s : String) : String :=
  ⟨s.data.foldl
    (fun acc c =>
      if c.isUpper then
        (if acc.isEmpty then [c.toLower] else acc ++ ['_', c.toLower])
      else acc ++ [c]) []⟩

/-- Embeds `writeResourceGo` (types.go lines 216-238): render the resource
template and output `<snake(kind)>.go`. -/
def writeResourceGo (res : Resource) (cfg : Config) (eo : EmitOracles) :
    Except GenErr Emit :=
  outputArtifact cfg eo (toSnake res.kind ++ ".go")
    (eo.render (TemplateVars.resourceVars cfg.genVersion res))

/-- Runs write steps left to right, keeping the emits that happened before
the first failure (each Go write function performs its output immediately;
a later failure does not undo earlier outputs). -/
def collectWrites : List (Except GenErr Emit) → List Emit × Option GenErr
  | [] => ([], none)
  | Except.error e :: _ => ([], some e)
  | Except.ok em :: rest =>
    let (ems, r) := collectWrites rest
    (em :: ems, r)

/-- Embeds `generateTypes` (types.go lines 97-133): load and extract via
`pipelineRT`, ensure the output directory, then write the doc,
group-version-info and types artifacts followed by one artifact per
resource in resource-list order, aborting at the first error. Returns the
outputs performed and the run's error, if any. -/
def generateTypes (args : List String) (cfg : Config) (lo : LoadOracles)
    (eo : EmitOracles) : List Emit × Option GenErr :=
  match pipelineRT args lo with
  | Except.error e => ([], some e)
  | Except.ok (api, resources, typeDefs) =>
    match ensureOutputDir cfg.outputPath eo.fs with
    | (_, some msg) => ([], some (GenErr.dirError msg))
    | (_, none) =>
      collectWrites
        (writeDocGo api cfg eo :: writeGroupVersionInfoGo api cfg eo ::
          writeTypesGo typeDefs cfg eo ::
          resources.map (fun r => writeResourceGo r cfg eo))

/-! ## Helper lemmas -/

theorem ne_of_data_ne {s t : String} (h : s.data ≠ t.data) : s ≠ t :=
  fun he => h (congrArg String.data he)

/-- The function `filepathExt` always returns either the empty string or a string whose
first character is a dot. -/
theorem filepathExtAux_shape (l acc : List Char) :
    filepathExtAux l acc = [] ∨ ∃ t, filepathExtAux l acc = '.' :: t := by
  induction l generalizing acc with
  | nil => exact Or.inl rfl
  | cons c rest ih =>
    by_cases h1 : c = '/'
    · exact Or.inl (by simp [filepathExtAux, h1])
    · by_cases h2 : c = '.'
      · exact Or.inr ⟨acc, by simp [filepathExtAux, h1, h2]⟩
      · simpa [filepathExtAux, h1, h2] using ih (c :: acc)

/-- The extension switch never fires: Go's `filepath.Ext` keeps the leading
dot, so the dotless case labels can never match. -/
theorem hintFromExt_filepathExt (fp : String) :
    hintFromExt (filepathExt fp) = ContentType.ctUnknown := by
  rcases filepathExtAux_shape fp.data.reverse [] with h | ⟨t, h⟩ <;>
    unfold filepathExt <;> rw [h]
  · rfl
  · have hj : String.mk ('.' :: t) ≠ "json" := by
      apply ne_of_data_ne
      intro hc
      rw [show "json".data = ['j', 's', 'o', 'n'] from rfl] at hc
      simp at hc
    have hy : String.mk ('.' :: t) ≠ "yaml" := by
      apply ne_of_data_ne
      intro hc
      rw [show "yaml".data = ['y', 'a', 'm', 'l'] from rfl] at hc
      simp at hc
    have hm : String.mk ('.' :: t) ≠ "yml" := by
      apply ne_of_data_ne
      intro hc
      rw [show "yml".data = ['y', 'm', 'l'] from rfl] at hc
      simp at hc
    simp [hintFromExt, hj, hy, hm]

/-- The read phase consults only the stdin and file-read oracles. -/
theorem readInput_congr (args : List String) (lo lo2 : LoadOracles)
    (h1 : lo.readStdin = lo2.readStdin) (h2 : lo.readFile = lo2.readFile) :
    readInput args lo = readInput args lo2 := by
  match args with
  | [] => simp only [readInput, h1]
  | [fp] => simp only [readInput, congrFun h2 fp]
  | a :: b :: rest => rfl

/-! ## Claim theorems -/

/-- C5: every invocation with two or more positional arguments fails with
the invalid-invocation error, without consulting any input oracle (the
result is identical for every oracle environment); invocations with zero
arguments whose stdin read yields at least 2 bytes, and invocations with
one argument whose file read yields at least 2 bytes, proceed past the
arity check (they never produce the invalid-invocation error). -/
theorem getAPI_arity (args : List String) (lo lo2 : LoadOracles)
    (b : List Char) :
    (2 ≤ args.length →
      getAPI args lo = Except.error LoadError.expectedDescriptor ∧
      getAPI args lo = getAPI args lo2) ∧
    (args = [] → lo.readStdin = some b → 2 ≤ b.length →
      getAPI args lo ≠ Except.error LoadError.expectedDescriptor) ∧
    (∀ fp, args = [fp] → lo.readFile fp = some b → 2 ≤ b.length →
      getAPI args lo ≠ Except.error LoadError.expectedDescriptor) := by
  refine ⟨fun hlen => ?_, fun ha hs hb => ?_, fun fp ha hs hb => ?_⟩
  · match args, hlen with
    | a :: a2 :: rest, _ => exact ⟨rfl, rfl⟩
  · subst ha
    have hnot : ¬ (b.length < 2) := by omega
    simp only [getAPI, readInput, hs, hnot, if_false]
    intro h
    split at h <;> simp at h
  · subst ha
    have hnot : ¬ (b.length < 2) := by omega
    simp only [getAPI, readInput, hs, hnot, if_false]
    intro h
    split at h <;> simp at h

/-- C6: whenever the read phase yields fewer than 2 bytes, `getAPI` fails
with the empty-or-invalid-document error, and the outcome is independent of
the decoding oracles (no sniffing or parsing is attempted): any environment
with the same stdin and file-read oracles produces the same result. -/
theorem getAPI_short_input (args : List String) (lo lo2 : LoadOracles)
    (ct : ContentType) (b : List Char)
    (hr : readInput args lo = Except.ok (ct, b)) (hlen : b.length < 2)
    (h1 : lo.readStdin = lo2.readStdin) (h2 : lo.readFile = lo2.readFile) :
    getAPI args lo = Except.error (LoadError.emptyOrInvalid b) ∧
    getAPI args lo = getAPI args lo2 := by
  have hr2 : readInput args lo2 = Except.ok (ct, b) :=
    (readInput_congr args lo lo2 h1 h2) ▸ hr
  constructor
  · simp only [getAPI, hr, hlen, if_true]
  · simp only [getAPI, hr, hr2, hlen, if_true]

/-- A trivial load environment where every oracle fails. -/
def loTrivial : LoadOracles :=
  { readStdin := none, readFile := fun _ => none,
    yamlToJSON := fun _ => none, parseSwagger := fun _ => none }

/-- Witness for C5: the concrete two-argument invocation is rejected. -/
theorem getAPI_arity_witness :
    getAPI ["a.json", "b.json"] loTrivial =
      Except.error LoadError.expectedDescriptor :=
  ((getAPI_arity ["a.json", "b.json"] loTrivial loTrivial []).1
    (by decide)).1

/-- An environment whose stdin yields the single byte 'x'. -/
def loShort : LoadOracles :=
  { readStdin := some ['x'], readFile := fun _ => none,
    yamlToJSON := fun _ => none, parseSwagger := fun _ => none }

/-- Witness for C6: a 1-byte stdin input is rejected as empty-or-invalid. -/
theorem getAPI_short_input_witness :
    getAPI [] loShort = Except.error (LoadError.emptyOrInvalid ['x']) :=
  (getAPI_short_input [] loShort loShort ContentType.ctUnknown ['x']
    rfl (by decide) rfl rfl).1

/-- C3: the file-extension hint derivation is dead code — for EVERY path
the derived hint is `ctUnknown`, never `ctJSON` or `ctYAML`, because Go's
`filepath.Ext` keeps the leading dot (`"api.yaml" ↦ ".yaml"`) while the
switch labels `"json"`/`"yaml"`/`"yml"` are dotless (the last conjunct
shows the dotless label would have selected the YAML branch as intended);
so a path's extension never forces a branch, contradicting the claim. -/
theorem extension_hint_never_set :
    (∀ fp, hintFromExt (filepathExt fp) = ContentType.ctUnknown) ∧
    filepathExt "api.yaml" = ".yaml" ∧
    hintFromExt ".yaml" = ContentType.ctUnknown ∧
    hintFromExt "yaml" = ContentType.ctYAML :=
  ⟨hintFromExt_filepathExt, by decide, by decide, by decide⟩

theorem removeQuotes_append (a b : String) :
    removeQuotes (a ++ b) = removeQuotes a ++ removeQuotes b := by
  apply String.ext
  simp [removeQuotes, String.data_append, List.filter_append]

/-- C9: the derived API group is always the raw alias text, with every
double-quote removed, followed by ".services.k8s.aws"; when the
`x-aws-api-alias` extension is absent the result is exactly
"unknown.services.k8s.aws". -/
theorem apiGroup_shape (api : Swagger) :
    apiGroupFromSwagger api =
      removeQuotes
        ((lookupExt api.extensions "x-aws-api-alias").getD "unknown") ++
        ".services.k8s.aws" ∧
    (lookupExt api.extensions "x-aws-api-alias" = none →
      apiGroupFromSwagger api = "unknown.services.k8s.aws") := by
  have hsfx : removeQuotes ".services.k8s.aws" = ".services.k8s.aws" := by
    decide
  constructor
  · cases hl : lookupExt api.extensions "x-aws-api-alias" with
    | none =>
      simp only [apiGroupFromSwagger, hl, Option.getD_none]
      rw [removeQuotes_append, hsfx]
    | some raw =>
      simp only [apiGroupFromSwagger, hl, Option.getD_some]
      rw [removeQuotes_append, hsfx]
  · intro hl
    simp only [apiGroupFromSwagger, hl]
    decide

/-- An API description with no extensions at all. -/
def swaggerNoAlias : Swagger :=
  { title := "t", extensions := [], definitions := [], opBodies := [] }

/-- Witness for C9 at an API with no `x-aws-api-alias` extension. -/
theorem apiGroup_shape_witness :
    apiGroupFromSwagger swaggerNoAlias = "unknown.services.k8s.aws" :=
  (apiGroup_shape swaggerNoAlias).2 rfl

/-- C10: with a non-empty output path that exists as a directory,
`ensureOutputDir` errors whenever the directory does not already contain a
file named `test` that the write-only, no-create open can succeed on; when
the path did not previously exist it succeeds reporting existed = false;
and with no output path set it is a noop returning (false, nil). -/
theorem ensureOutputDir_spec (path : String) (fs : String → FSEntry) :
    (path ≠ "" → fs path = FSEntry.dir →
      fs (path ++ "/test") ≠ FSEntry.file true →
      (ensureOutputDir path fs).2.isSome = true) ∧
    (path ≠ "" → fs path = FSEntry.absent →
      ensureOutputDir path fs = (false, none)) ∧
    ensureOutputDir "" fs = (false, none) := by
  refine ⟨fun hne hdir hprobe => ?_, fun hne habs => ?_, by simp [ensureOutputDir]⟩
  · simp only [ensureOutputDir, if_neg hne, hdir]
    cases hp : fs (path ++ "/test") with
    | absent => simp [hp]
    | dir => simp [hp]
    | file w =>
      cases w
      · simp [hp]
      · exact absurd hp hprobe
  · simp only [ensureOutputDir, if_neg hne, habs]

/-- A filesystem with an existing, empty output directory `out`. -/
def fsEmptyDir : String → FSEntry := fun p =>
  if p = "out" then FSEntry.dir else FSEntry.absent

/-- Witness for C10: an existing directory with no `test` file inside makes
`ensureOutputDir` fail. -/
theorem ensureOutputDir_spec_witness :
    (ensureOutputDir "out" fsEmptyDir).2.isSome = true :=
  (ensureOutputDir_spec "out" fsEmptyDir).1 (by decide) (by decide) (by decide)

/-- C1: the loading-and-extraction pipeline is deterministic and
idempotent — two runs over oracle environments that present the same raw
input (the same stdin bytes, the same file contents, the same decoder
behaviour) produce identical Resource lists and identical TypeDef lists,
in identical order. (The pipeline takes no emission oracle at all, so the
result is also independent of the output environment.) -/
theorem pipeline_deterministic (args : List String) (lo1 lo2 : LoadOracles)
    (h1 : lo1.readStdin = lo2.readStdin) (h2 : lo1.readFile = lo2.readFile)
    (h3 : lo1.yamlToJSON = lo2.yamlToJSON)
    (h4 : lo1.parseSwagger = lo2.parseSwagger) :
    (pipelineRT args lo1).map (fun t => t.2.1) =
      (pipelineRT args lo2).map (fun t => t.2.1) ∧
    (pipelineRT args lo1).map (fun t => t.2.2) =
      (pipelineRT args lo2).map (fun t => t.2.2) := by
  have heq : lo1 = lo2 := by
    cases lo1
    cases lo2
    simp only at h1 h2 h3 h4
    simp [h1, h2, h3, h4]
  subst heq
  exact ⟨rfl, rfl⟩

/-- Witness for C1: two runs on the same concrete environment agree. -/
theorem pipeline_deterministic_witness :
    (pipelineRT [] loShort).map (fun t => t.2.1) =
      (pipelineRT [] loShort).map (fun t => t.2.1) :=
  (pipeline_deterministic [] loShort loShort rfl rfl rfl rfl).1

/-- The read phase never produces a YAML or JSON hint: stdin input carries
no hint and the file-extension switch is dead code (see
`hintFromExt_filepathExt`). -/
theorem readInput_ct_unknown (args : List String) (lo : LoadOracles)
    (ct : ContentType) (b : List Char)
    (h : readInput args lo = Except.ok (ct, b)) :
    ct = ContentType.ctUnknown := by
  match args with
  | [] =>
    simp only [readInput] at h
    cases hs : lo.readStdin with
    | some b2 =>
      rw [hs] at h
      simp at h
      exact h.1.symm
    | none => rw [hs] at h; cases h
  | [fp] =>
    simp only [readInput] at h
    cases hf : lo.readFile fp with
    | some b2 =>
      rw [hf] at h
      simp at h
      rw [← h.1, hintFromExt_filepathExt]
    | none => rw [hf] at h; cases h
  | a :: c :: rest => cases h

/-- An environment whose stdin is " {}" — a JSON object preceded by one
space — and whose parser tags the result with which bytes it was given. -/
def loSpace1 : LoadOracles :=
  { readStdin := some [' ', '{', '}'],
    readFile := fun _ => none,
    yamlToJSON := fun _ => some ['{', '}'],
    parseSwagger := fun b =>
      some { title := if b = [' ', '{', '}'] then "rawJSON" else "yamlNormalized",
             extensions := [], definitions := [], opBodies := [] } }

/-- Same environment, except the YAML-to-JSON library fails. -/
def loSpace2 : LoadOracles :=
  { loSpace1 with yamlToJSON := fun _ => none }

/-- C2 counterexample: on the concrete input " {}" — whose first
non-whitespace byte is '{' — the YAML normalization IS invoked: two
environments identical except for the YAML-to-JSON library give different
results, because the code inspects the raw first byte `b[0]` (here a
space), not the first non-whitespace byte. -/
theorem sniff_counterexample :
    ((loSpace1.readStdin.getD []).dropWhile Char.isWhitespace).head? =
      some '{' ∧
    loSpace1.readStdin = loSpace2.readStdin ∧
    loSpace1.readFile = loSpace2.readFile ∧
    loSpace1.parseSwagger = loSpace2.parseSwagger ∧
    getAPI [] loSpace1 ≠ getAPI [] loSpace2 := by
  refine ⟨by decide, rfl, rfl, rfl, fun h => ?_⟩
  have h1 : getAPI [] loSpace1 =
      Except.ok { title := "yamlNormalized", extensions := [],
                  definitions := [], opBodies := [] } := rfl
  have h2 : getAPI [] loSpace2 =
      Except.ok { title := "rawJSON", extensions := [],
                  definitions := [], opBodies := [] } := rfl
  rw [h1, h2] at h
  injection h with h3
  exact absurd (congrArg Swagger.title h3) (by decide)

/-- C2 (amended): the loader inspects the FIRST byte of the input: when
the hint is absent and the first byte is '{' or '[' the bytes are treated
as already-JSON and the YAML normalization step is never invoked — the
run's outcome is independent of the YAML-to-JSON library. -/
theorem sniff_first_byte (args : List String) (lo1 lo2 : LoadOracles)
    (ct : ContentType) (b : List Char)
    (h1 : lo1.readStdin = lo2.readStdin) (h2 : lo1.readFile = lo2.readFile)
    (h3 : lo1.parseSwagger = lo2.parseSwagger)
    (hr : readInput args lo1 = Except.ok (ct, b))
    (hb : b.head? = some '{' ∨ b.head? = some '[') :
    getAPI args lo1 = getAPI args lo2 := by
  have hct := readInput_ct_unknown args lo1 ct b hr
  subst hct
  have hr2 : readInput args lo2 = Except.ok (ContentType.ctUnknown, b) :=
    (readInput_congr args lo1 lo2 h1 h2) ▸ hr
  rcases hb with hb | hb <;>
    simp only [getAPI, hr, hr2, h3] <;> simp [hb]

/-- An environment whose stdin is "{}" with a working YAML library. -/
def loBrace1 : LoadOracles :=
  { readStdin := some ['{', '}'], readFile := fun _ => none,
    yamlToJSON := fun _ => some ['!'],
    parseSwagger := fun _ => some swaggerNoAlias }

/-- Same environment with a failing YAML library. -/
def loBrace2 : LoadOracles := { loBrace1 with yamlToJSON := fun _ => none }

/-- Witness for the amended C2: a brace-first input is insensitive to the
YAML library. -/
theorem sniff_first_byte_witness : getAPI [] loBrace1 = getAPI [] loBrace2 :=
  sniff_first_byte [] loBrace1 loBrace2 ContentType.ctUnknown ['{', '}']
    rfl rfl rfl rfl (Or.inl rfl)

/-- A load environment whose stdin is "{}", parsing to an API with no
definitions. -/
def loEmptyAPI : LoadOracles :=
  { readStdin := some ['{', '}'], readFile := fun _ => none,
    yamlToJSON := fun _ => none,
    parseSwagger := fun _ => some swaggerNoAlias }

/-- Emission into an existing writable directory `out`; every template
renders except the group-version-info one. -/
def eoGviFails : EmitOracles :=
  { render := fun v =>
      match v with
      | TemplateVars.gviVars _ _ => none
      | _ => some "rendered",
    writeOk := fun _ => true,
    fs := fun p =>
      if p = "out" then FSEntry.dir
      else if p = "out/test" then FSEntry.file true
      else FSEntry.absent }

/-- The default flags with `--output out`. -/
def cfgOut : Config := { genVersion := "v1alpha1", outputPath := "out" }

/-- C4 counterexample: a concrete run in which a component fails (the
group-version-info render) yet an output artifact HAS been written —
doc.go was persisted before the failure, so the failed run left a
non-empty, partial file set. -/
theorem emission_counterexample :
    (generateTypes [] cfgOut loEmptyAPI eoGviFails).2 =
      some (GenErr.renderError "groupversion_info.go") ∧
    (generateTypes [] cfgOut loEmptyAPI eoGviFails).1 =
      [Emit.written "doc.go"] :=
  ⟨rfl, rfl⟩

/-- C4 (amended): a failure in loading, resource extraction,
type-definition extraction, or output-directory preparation aborts before
any artifact is emitted; a failure while rendering or writing an artifact
stops the run but leaves the artifacts already emitted earlier in the same
run in place — emission is sequential with early abort, not
all-or-nothing. -/
theorem emission_aborts_before_write (args : List String) (cfg : Config)
    (lo : LoadOracles) (eo : EmitOracles) :
    ((∃ e, pipelineRT args lo = Except.error e) →
      (generateTypes args cfg lo eo).1 = []) ∧
    (∀ msg, (ensureOutputDir cfg.outputPath eo.fs).2 = some msg →
      (generateTypes args cfg lo eo).1 = []) := by
  constructor
  · rintro ⟨e, he⟩
    simp [generateTypes, he]
  · intro msg hm
    cases hp : pipelineRT args lo with
    | error e => simp [generateTypes, hp]
    | ok t =>
      obtain ⟨api, rs, ts⟩ := t
      cases hd : ensureOutputDir cfg.outputPath eo.fs with
      | mk ex m2 =>
        rw [hd] at hm
        simp only at hm
        subst hm
        simp only [generateTypes, hp, hd]

/-- Witness for the amended C4: a failing load emits nothing. -/
theorem emission_aborts_before_write_witness :
    (generateTypes [] defaultConfig loTrivial eoGviFails).1 = [] :=
  (emission_aborts_before_write [] defaultConfig loTrivial eoGviFails).1
    ⟨GenErr.loadErr LoadError.expectedDescriptor, rfl⟩

theorem collectWrites_cons_ok (em : Emit) (rest : List (Except GenErr Emit)) :
    collectWrites (Except.ok em :: rest) =
      (em :: (collectWrites rest).1, (collectWrites rest).2) := by
  cases h : collectWrites rest with
  | mk a b => simp [collectWrites, h]

theorem collectWrites_cons_err (e : GenErr)
    (rest : List (Except GenErr Emit)) :
    collectWrites (Except.error e :: rest) = ([], some e) := rfl

/-- A successful `outputArtifact` emits exactly the requested filename. -/
theorem outputArtifact_ok_name (cfg : Config) (eo : EmitOracles)
    (fname : String) (rendered : Option String) (em : Emit)
    (h : outputArtifact cfg eo fname rendered = Except.ok em) :
    emitName em = fname := by
  unfold outputArtifact at h
  cases rendered with
  | none => cases h
  | some s =>
    by_cases hp : cfg.outputPath = ""
    · rw [if_pos hp] at h
      injection h with h2
      rw [← h2]
      rfl
    · rw [if_neg hp] at h
      by_cases hw : eo.writeOk (cfg.outputPath ++ "/" ++ fname) = true
      · rw [if_pos hw] at h
        injection h with h2
        rw [← h2]
        rfl
      · rw [if_neg hw] at h
        cases h

/-- With the stdout sentinel, a successful `outputArtifact` prints. -/
theorem outputArtifact_stdout (cfg : Config) (eo : EmitOracles)
    (fname : String) (rendered : Option String) (em : Emit)
    (hp : cfg.outputPath = "")
    (h : outputArtifact cfg eo fname rendered = Except.ok em) :
    em = Emit.printed fname := by
  unfold outputArtifact at h
  cases rendered with
  | none => cases h
  | some s =>
    rw [if_pos hp] at h
    injection h with h2
    exact h2.symm

/-- Every emit collected before the first failure came from a successful
write step of the input list. -/
theorem collectWrites_mem (l : List (Except GenErr Emit)) (em : Emit)
    (h : em ∈ (collectWrites l).1) : Except.ok em ∈ l := by
  induction l with
  | nil => simp [collectWrites] at h
  | cons x rest ih =>
    cases x with
    | error e => simp [collectWrites_cons_err] at h
    | ok em2 =>
      rw [collectWrites_cons_ok] at h
      rcases List.mem_cons.mp h with h | h
      · subst h
        exact List.mem_cons_self _ _
      · exact List.mem_cons_of_mem _ (ih h)

/-- A run of per-resource writes that all succeed emits exactly one
artifact per resource, named after the resource, in list order. -/
theorem collectWrites_resources (cfg : Config) (eo : EmitOracles) :
    ∀ rs : List Resource,
      (collectWrites (rs.map (fun r => writeResourceGo r cfg eo))).2 =
        none →
      ((collectWrites
          (rs.map (fun r => writeResourceGo r cfg eo))).1).map emitName =
        rs.map (fun r => toSnake r.kind ++ ".go") := by
  intro rs
  induction rs with
  | nil => intro _; rfl
  | cons r rest ih =>
    intro h
    simp only [List.map_cons] at h ⊢
    cases hw : writeResourceGo r cfg eo with
    | error e =>
      rw [hw, collectWrites_cons_err] at h
      cases h
    | ok em =>
      rw [hw] at h
      rw [collectWrites_cons_ok] at h ⊢
      have hname : emitName em = toSnake r.kind ++ ".go" := by
        have hw2 : outputArtifact cfg eo (toSnake r.kind ++ ".go")
            (eo.render (TemplateVars.resourceVars cfg.genVersion r)) =
              Except.ok em := hw
        exact outputArtifact_ok_name _ _ _ _ _ hw2
      simp only [List.map_cons, hname, ih h]

theorem collectWrites_snd_ok (em : Emit) (rest : List (Except GenErr Emit)) :
    (collectWrites (Except.ok em :: rest)).2 = (collectWrites rest).2 := by
  rw [collectWrites_cons_ok]

theorem collectWrites_fst_ok (em : Emit) (rest : List (Except GenErr Emit)) :
    (collectWrites (Except.ok em :: rest)).1 =
      em :: (collectWrites rest).1 := by
  rw [collectWrites_cons_ok]

theorem collectWrites_snd_err (e : GenErr)
    (rest : List (Except GenErr Emit)) :
    (collectWrites (Except.error e :: rest)).2 = some e := rfl

/-- C7: on every successful run the artifacts emitted are exactly: the
module-docs artifact (doc.go), the API-group-metadata artifact
(groupversion_info.go), the shared-types artifact (types.go), and then
one artifact per resource, in the order of the resource list. -/
theorem generateTypes_success_artifacts (args : List String) (cfg : Config)
    (lo : LoadOracles) (eo : EmitOracles) (api : Swagger)
    (resources : List Resource) (typeDefs : List TypeDef)
    (hp : pipelineRT args lo = Except.ok (api, resources, typeDefs))
    (hok : (generateTypes args cfg lo eo).2 = none) :
    ((generateTypes args cfg lo eo).1).map emitName =
      "doc.go" :: "groupversion_info.go" :: "types.go" ::
        resources.map (fun r => toSnake r.kind ++ ".go") := by
  cases hd : ensureOutputDir cfg.outputPath eo.fs with
  | mk ex m2 =>
    cases m2 with
    | some msg =>
      rw [show generateTypes args cfg lo eo =
            ([], some (GenErr.dirError msg)) from by
          simp only [generateTypes, hp, hd]] at hok
      cases hok
    | none =>
      have hgen : generateTypes args cfg lo eo =
          collectWrites (writeDocGo api cfg eo ::
            writeGroupVersionInfoGo api cfg eo ::
            writeTypesGo typeDefs cfg eo ::
            resources.map (fun r => writeResourceGo r cfg eo)) := by
        simp only [generateTypes, hp, hd]
      rw [hgen] at hok ⊢
      cases hw1 : writeDocGo api cfg eo with
      | error e =>
        rw [hw1, collectWrites_snd_err] at hok
        cases hok
      | ok em1 =>
        rw [hw1] at hok
        rw [collectWrites_snd_ok] at hok
        rw [collectWrites_fst_ok]
        cases hw2 : writeGroupVersionInfoGo api cfg eo with
        | error e =>
          rw [hw2, collectWrites_snd_err] at hok
          cases hok
        | ok em2 =>
          rw [hw2] at hok
          rw [collectWrites_snd_ok] at hok
          rw [collectWrites_fst_ok]
          cases hw3 : writeTypesGo typeDefs cfg eo with
          | error e =>
            rw [hw3, collectWrites_snd_err] at hok
            cases hok
          | ok em3 =>
            rw [hw3] at hok
            rw [collectWrites_snd_ok] at hok
            rw [collectWrites_fst_ok]
            have h1 : emitName em1 = "doc.go" :=
              outputArtifact_ok_name cfg eo "doc.go"
                (eo.render (TemplateVars.docVars cfg.genVersion
                  (apiGroupFromSwagger api))) em1 hw1
            have h2 : emitName em2 = "groupversion_info.go" :=
              outputArtifact_ok_name cfg eo "groupversion_info.go"
                (eo.render (TemplateVars.gviVars cfg.genVersion
                  (apiGroupFromSwagger api))) em2 hw2
            have h3 : emitName em3 = "types.go" :=
              outputArtifact_ok_name cfg eo "types.go"
                (eo.render (TemplateVars.typesVars cfg.genVersion
                  typeDefs)) em3 hw3
            simp only [List.map_cons, h1, h2, h3,
              collectWrites_resources cfg eo resources hok]

/-- The schema of the Widget example. -/
def widgetSchema : Schema :=
  Schema.object [("name", Schema.primitive "string", true)]

/-- An API description with one resource-worthy definition. -/
def swaggerWidget : Swagger :=
  { title := "w", extensions := [],
    definitions := [("Widget", widgetSchema)],
    opBodies := ["Widget"] }

/-- A load environment yielding `swaggerWidget`. -/
def loWidget : LoadOracles :=
  { readStdin := some ['{', '}'], readFile := fun _ => none,
    yamlToJSON := fun _ => none,
    parseSwagger := fun _ => some swaggerWidget }

/-- An emission environment where every render and write succeeds. -/
def eoAllOk : EmitOracles :=
  { render := fun _ => some "rendered", writeOk := fun _ => true,
    fs := fun _ => FSEntry.absent }

/-- Witness for C7: a fully successful concrete run emits the three fixed
artifacts followed by the one resource artifact. -/
theorem generateTypes_success_artifacts_witness :
    ((generateTypes [] defaultConfig loWidget eoAllOk).1).map emitName =
      "doc.go" :: "groupversion_info.go" :: "types.go" ::
        ([{ kind := "Widget", spec := widgetSchema }] : List Resource).map
          (fun r => toSnake r.kind ++ ".go") :=
  generateTypes_success_artifacts [] defaultConfig loWidget eoAllOk
    swaggerWidget [{ kind := "Widget", spec := widgetSchema }]
    [{ name := "Widget", schema := widgetSchema }] rfl rfl

/-- C8: the API-version flag defaults to the string "v1alpha1", the
output-location flag defaults to the empty string, and under that default
every emitted artifact is displayed (printed), never persisted to a
file. -/
theorem default_flags_print (args : List String) (lo : LoadOracles)
    (eo : EmitOracles) :
    defaultConfig.genVersion = "v1alpha1" ∧
    defaultConfig.outputPath = "" ∧
    (∀ em, em ∈ (generateTypes args defaultConfig lo eo).1 →
      ∃ n, em = Emit.printed n) := by
  refine ⟨rfl, rfl, fun em hm => ?_⟩
  cases hp : pipelineRT args lo with
  | error e =>
    rw [show generateTypes args defaultConfig lo eo = ([], some e) from by
      simp only [generateTypes, hp]] at hm
    cases hm
  | ok t =>
    obtain ⟨api, rs, ts⟩ := t
    have hgen : generateTypes args defaultConfig lo eo =
        collectWrites (writeDocGo api defaultConfig eo ::
          writeGroupVersionInfoGo api defaultConfig eo ::
          writeTypesGo ts defaultConfig eo ::
          rs.map (fun r => writeResourceGo r defaultConfig eo)) := by
      simp only [generateTypes, hp]
      rfl
    rw [hgen] at hm
    have hmem := collectWrites_mem _ _ hm
    rcases List.mem_cons.mp hmem with h | hmem
    · exact ⟨"doc.go", outputArtifact_stdout defaultConfig eo "doc.go"
        (eo.render (TemplateVars.docVars defaultConfig.genVersion
          (apiGroupFromSwagger api))) em rfl h.symm⟩
    rcases List.mem_cons.mp hmem with h | hmem
    · exact ⟨"groupversion_info.go",
        outputArtifact_stdout defaultConfig eo "groupversion_info.go"
          (eo.render (TemplateVars.gviVars defaultConfig.genVersion
            (apiGroupFromSwagger api))) em rfl h.symm⟩
    rcases List.mem_cons.mp hmem with h | hmem
    · exact ⟨"types.go", outputArtifact_stdout defaultConfig eo "types.go"
        (eo.render (TemplateVars.typesVars defaultConfig.genVersion ts))
        em rfl h.symm⟩
    · obtain ⟨r, _, hr⟩ := List.mem_map.mp hmem
      exact ⟨toSnake r.kind ++ ".go",
        outputArtifact_stdout defaultConfig eo (toSnake r.kind ++ ".go")
          (eo.render (TemplateVars.resourceVars defaultConfig.genVersion r))
          em rfl hr⟩

/-- Witness for C8: the first artifact of a concrete default-flag run is a
printed one. -/
theorem default_flags_print_witness :
    ∃ n, Emit.printed "doc.go" = Emit.printed n :=
  (default_flags_print [] loWidget eoAllOk).2.2 (Emit.printed "doc.go")
    (by decide)

end AckGen
